import Mathlib

/-!
# Verification of the coffee-dex mapping core

Shallow embedding of the coffee → Pokemon mapping engine of the
`coffee-dex` repository, translated from the Go sources:

* `models` (Coffee, TastingTraits, Pokemon, CoffeePokemon, TraitMapping,
  LLMMappingResponse) — `src/unnamed/part_013`, `src/unnamed/part_014`;
* `service.PokemonMapper` (type rule table, trait scorer, category
  selection) — `src/service/pokemon_mapper.go`;
* `service.LLMService` (refiner response parsing and fallback parse) —
  `src/service/llm.go`;
* `service.PokemonService` (candidate lookup, best-type-match fallback,
  trait annotations, uniqueness enforcement, mapping assembly) —
  `src/unnamed/part_012`;
* `storage.MySQLPokemonStorage` (candidate queries, used-registry check,
  mapping insertion guarded by the unique index on `pokemon_id`) —
  `src/storage/pokemon_storage.go`.

Go `float64` arithmetic is modelled with `ℚ` (all constants in the rule
table are decimal, so every value computed by the scorer is an exact
rational; no rounding behaviour is claimed).  Go `time.Time` values and
freshly generated UUIDs are threaded as parameters.  Numeric formatting
inside human-readable description strings (Go `fmt.Sprintf` `%.0f`) is
abstracted by `toString` of the rational; no theorem below depends on
the text of a description.
-/

/- Batteries marks the `Rat` field operations irreducible; concrete
witnesses and counterexamples below evaluate the scorer on explicit
inputs, so reducibility is restored for this file. -/
attribute [local semireducible] Rat.add Rat.mul Rat.inv Rat.sub Rat.ofScientific

/-! ## String helpers (Go `strings.Contains`, `strings.ToLower`) -/

/-- Substring test on character lists: `containsSub needle hay` is true iff
`needle` occurs contiguously in `hay` (model of Go `strings.Contains`). -/
def containsSub (needle : List Char) : List Char → Bool
  | [] => needle.isEmpty
  | c :: rest => needle.isPrefixOf (c :: rest) || containsSub needle rest

/-- Go `strings.Contains(hay, needle)`. -/
def strContains (hay needle : String) : Bool :=
  containsSub needle.toList hay.toList

/-- Go `strings.ToLower` (exact on the ASCII data this program handles). -/
def strToLower (s : String) : String :=
  ⟨s.data.map Char.toLower⟩

/-- Go `strings.TrimSpace` (leading and trailing whitespace removed). -/
def trimSpace (s : String) : String :=
  ⟨((s.data.dropWhile Char.isWhitespace).reverse.dropWhile Char.isWhitespace).reverse⟩

/-- Go `strings.ReplaceAll` on character lists, non-overlapping and
left-to-right, fuelled by the input length (the patterns used by the
program are non-empty). -/
def replaceAllAux (pat rep : List Char) : Nat → List Char → List Char
  | _, [] => []
  | 0, l => l
  | fuel + 1, c :: rest =>
    if !pat.isEmpty && pat.isPrefixOf (c :: rest) then
      rep ++ replaceAllAux pat rep fuel ((c :: rest).drop pat.length)
    else c :: replaceAllAux pat rep fuel rest

/-- Go `strings.ReplaceAll(s, pat, rep)`. -/
def replaceAll (s pat rep : String) : String :=
  ⟨replaceAllAux pat.data rep.data s.data.length s.data⟩

/-! ## Data model (`models` package) -/

/-- `models.DrawDownTime` (`src/unnamed/part_013`). -/
structure DrawDownTime where
  minutes : Int
  seconds : Int
deriving DecidableEq, Repr

/-- `models.TastingTraits` (`src/unnamed/part_013`): the 12 named
intensity traits. -/
structure TastingTraits where
  berryIntensity : Int
  stonefruitIntensity : Int
  roastIntensity : Int
  citrusFruitsIntensity : Int
  bitterness : Int
  florality : Int
  spice : Int
  sweetness : Int
  aromaticIntensity : Int
  savory : Int
  body : Int
  cleanliness : Int
deriving DecidableEq, Repr

/-- `models.Coffee` (`src/unnamed/part_013`).  `TastingNotes` is a Go
`[5]string`; it is modelled as a list (always of length 5 in the
program; none of the verified properties depends on the length bound).
`time.Time` fields are abstracted to `Nat`. -/
structure Coffee where
  id : String
  name : String
  origin : String
  roaster : String
  variety : String
  roastLevel : String
  processingMethod : String
  tastingNotes : List String
  tastingTraits : TastingTraits
  rating : Int
  recipe : List String
  dripper : String
  endTime : DrawDownTime
  createdAt : Nat
  updatedAt : Nat
deriving DecidableEq, Repr

/-- `models.Stats` (`src/unnamed/part_014`). -/
structure Stats where
  hp : Int
  attack : Int
  defense : Int
  speed : Int
  special : Int
deriving DecidableEq, Repr

/-- `models.Pokemon` (`src/unnamed/part_014`).  The Go field `Type`
(a string such as "Grass/Poison") is named `ptype` here because `type`
is reserved in Lean. -/
structure Pokemon where
  id : Int
  name : String
  ptype : String
  spritePath : String
  baseStats : Stats
  description : String
deriving DecidableEq, Repr

/-- `models.TraitMapping` (`src/unnamed/part_014`). -/
structure TraitMapping where
  trait : String
  pokemonStat : String
  reasoning : String
deriving DecidableEq, Repr

/-- `models.CoffeePokemon` (`src/unnamed/part_014`): the persisted
mapping record.  `MappingConfidence` is `ℚ`, `CreatedAt` is abstracted
to `Nat`. -/
structure CoffeePokemon where
  id : String
  coffeeID : String
  pokemonID : Int
  pokemonName : String
  nickname : String
  level : Int
  mappingConfidence : ℚ
  llmDescription : String
  traitMapping : List TraitMapping
  createdAt : Nat
deriving DecidableEq, Repr

/-- `models.LLMMappingResponse` (`src/unnamed/part_014`). -/
structure LLMMappingResponse where
  selectedPokemon : String
  confidence : ℚ
  description : String
  traitMapping : List TraitMapping
deriving DecidableEq, Repr

/-! ## Type rule table (`service.PokemonMapper`, `pokemon_mapper.go`) -/

/-- `service.TraitWeight` (`pokemon_mapper.go` lines 42-47). -/
structure TraitWeight where
  trait : String
  weight : ℚ
  min : Int
  max : Int
deriving DecidableEq, Repr

/-- `service.TypeMappingRule` (`pokemon_mapper.go` lines 31-39).  The Go
maps `ProcessingBonus` and `RoastLevelBonus` are modelled as association
lists (their keys are distinct string literals). -/
structure TypeMappingRule where
  rtype : String
  primaryTraits : List TraitWeight
  secondaryTraits : List TraitWeight
  keywordMatches : List String
  processingBonus : List (String × ℚ)
  roastLevelBonus : List (String × ℚ)
  minimumThreshold : ℚ
deriving DecidableEq, Repr

/-- The "normal" rule (`initializeTypeRules`, lines 61-74). -/
def normalRule : TypeMappingRule where
  rtype := "normal"
  primaryTraits := [⟨"cleanliness", 2, 6, 9⟩, ⟨"body", 3/2, 4, 7⟩]
  secondaryTraits := [⟨"sweetness", 1, 4, 6⟩, ⟨"bitterness", 1, 3, 6⟩]
  keywordMatches := []
  processingBonus := [("washed", 13/10)]
  roastLevelBonus := [("medium", 7/5), ("light medium", 6/5)]
  minimumThreshold := 2/5

/-- The "fire" rule (lines 77-91). -/
def fireRule : TypeMappingRule where
  rtype := "fire"
  primaryTraits := [⟨"roast_intensity", 5/2, 7, 10⟩, ⟨"savory", 2, 6, 10⟩,
    ⟨"spice", 11/5, 7, 10⟩]
  secondaryTraits := [⟨"bitterness", 6/5, 6, 9⟩, ⟨"body", 1, 7, 10⟩]
  keywordMatches := ["pepper", "roast", "smoke", "char", "burnt", "toast", "caramel"]
  processingBonus := []
  roastLevelBonus := [("dark", 9/5), ("medium dark", 3/2)]
  minimumThreshold := 3/5

/-- The "water" rule (lines 94-106). -/
def waterRule : TypeMappingRule where
  rtype := "water"
  primaryTraits := [⟨"cleanliness", 2, 8, 10⟩, ⟨"body", 3/2, 2, 5⟩]
  secondaryTraits := [⟨"sweetness", 1, 3, 6⟩]
  keywordMatches := ["water", "clean", "crisp", "mineral", "seaweed", "ocean"]
  processingBonus := [("washed", 3/2)]
  roastLevelBonus := []
  minimumThreshold := 1/2

/-- The "grass" rule (lines 109-123). -/
def grassRule : TypeMappingRule where
  rtype := "grass"
  primaryTraits := [⟨"florality", 5/2, 7, 10⟩, ⟨"aromatic_intensity", 2, 6, 10⟩]
  secondaryTraits := [⟨"cleanliness", 13/10, 6, 9⟩, ⟨"sweetness", 1, 5, 8⟩]
  keywordMatches := ["floral", "jasmine", "rose", "grass", "vegetal", "green",
    "herbal", "tea"]
  processingBonus := [("washed", 13/10), ("honey", 6/5)]
  roastLevelBonus := [("light", 3/2), ("light medium", 13/10)]
  minimumThreshold := 11/20

/-- The "electric" rule (lines 126-140); note the negative secondary
weight on `body`. -/
def electricRule : TypeMappingRule where
  rtype := "electric"
  primaryTraits := [⟨"citrus_fruits_intensity", 5/2, 7, 10⟩,
    ⟨"aromatic_intensity", 2, 7, 10⟩]
  secondaryTraits := [⟨"cleanliness", 3/2, 7, 10⟩, ⟨"body", -1, 2, 5⟩]
  keywordMatches := ["citrus", "lemon", "lime", "orange", "grapefruit", "bright",
    "zesty", "tangy", "acidic"]
  processingBonus := [("washed", 7/5)]
  roastLevelBonus := [("light", 8/5), ("light medium", 13/10)]
  minimumThreshold := 3/5

/-- The "ice" rule (lines 143-155). -/
def iceRule : TypeMappingRule where
  rtype := "ice"
  primaryTraits := [⟨"cleanliness", 5/2, 8, 10⟩, ⟨"aromatic_intensity", 2, 7, 10⟩]
  secondaryTraits := [⟨"florality", 3/2, 6, 9⟩]
  keywordMatches := ["mint", "menthol", "eucalyptus", "cooling", "fresh", "crisp"]
  processingBonus := [("washed", 7/5)]
  roastLevelBonus := []
  minimumThreshold := 13/20

/-- The "poison" rule (lines 158-171). -/
def poisonRule : TypeMappingRule where
  rtype := "poison"
  primaryTraits := [⟨"spice", 5/2, 7, 10⟩, ⟨"savory", 2, 7, 10⟩]
  secondaryTraits := [⟨"aromatic_intensity", 3/2, 7, 10⟩, ⟨"bitterness", 1, 5, 8⟩]
  keywordMatches := ["spice", "funky", "ferment", "wild", "unusual", "complex",
    "intense"]
  processingBonus := [("natural", 3/2), ("experimental", 9/5), ("coferment", 17/10)]
  roastLevelBonus := []
  minimumThreshold := 3/5

/-- The "ground" rule (lines 174-187). -/
def groundRule : TypeMappingRule where
  rtype := "ground"
  primaryTraits := [⟨"body", 5/2, 7, 10⟩, ⟨"savory", 2, 6, 10⟩]
  secondaryTraits := [⟨"roast_intensity", 3/2, 5, 8⟩, ⟨"bitterness", 1, 4, 7⟩]
  keywordMatches := ["earth", "soil", "grain", "wheat", "cereal", "nutty",
    "almond", "hazelnut"]
  processingBonus := [("natural", 13/10), ("honey", 6/5)]
  roastLevelBonus := []
  minimumThreshold := 11/20

/-- The "rock" rule (lines 190-203). -/
def rockRule : TypeMappingRule where
  rtype := "rock"
  primaryTraits := [⟨"stonefruit_intensity", 3, 7, 10⟩, ⟨"sweetness", 2, 6, 9⟩]
  secondaryTraits := [⟨"body", 3/2, 6, 9⟩, ⟨"aromatic_intensity", 1, 5, 8⟩]
  keywordMatches := ["peach", "apricot", "plum", "cherry", "nectarine", "stonefruit"]
  processingBonus := [("natural", 7/5), ("honey", 13/10)]
  roastLevelBonus := []
  minimumThreshold := 3/5

/-- The "dark" rule (lines 206-219); note the negative secondary weight
on `sweetness`. -/
def darkRule : TypeMappingRule where
  rtype := "dark"
  primaryTraits := [⟨"roast_intensity", 5/2, 7, 10⟩, ⟨"bitterness", 2, 6, 9⟩]
  secondaryTraits := [⟨"body", 3/2, 7, 10⟩, ⟨"sweetness", -1, 2, 5⟩]
  keywordMatches := ["dark", "chocolate", "cocoa", "roast", "bold", "intense"]
  processingBonus := []
  roastLevelBonus := [("dark", 2), ("medium dark", 8/5)]
  minimumThreshold := 3/5

/-- The "fairy" rule (lines 222-235). -/
def fairyRule : TypeMappingRule where
  rtype := "fairy"
  primaryTraits := [⟨"sweetness", 3, 8, 10⟩, ⟨"aromatic_intensity", 2, 7, 10⟩]
  secondaryTraits := [⟨"florality", 3/2, 6, 9⟩, ⟨"berry_intensity", 3/2, 6, 9⟩]
  keywordMatches := ["sweet", "candy", "sugar", "honey", "vanilla", "caramel",
    "syrup", "dessert"]
  processingBonus := [("natural", 7/5), ("honey", 3/2)]
  roastLevelBonus := []
  minimumThreshold := 13/20

/-- The "psychic" rule (lines 238-250); the only rule besides "normal"
with no keyword list. -/
def psychicRule : TypeMappingRule where
  rtype := "psychic"
  primaryTraits := [⟨"aromatic_intensity", 5/2, 8, 10⟩, ⟨"cleanliness", 2, 7, 10⟩]
  secondaryTraits := [⟨"florality", 3/2, 6, 9⟩, ⟨"berry_intensity", 1, 6, 9⟩]
  keywordMatches := []
  processingBonus := [("experimental", 9/5), ("coferment", 8/5)]
  roastLevelBonus := []
  minimumThreshold := 7/10

/-- The "bug" rule (lines 253-265). -/
def bugRule : TypeMappingRule where
  rtype := "bug"
  primaryTraits := [⟨"spice", 2, 5, 9⟩, ⟨"aromatic_intensity", 3/2, 5, 9⟩]
  secondaryTraits := [⟨"body", 1, 4, 7⟩]
  keywordMatches := ["spice", "cinnamon", "cardamom", "clove", "insect", "bug"]
  processingBonus := [("natural", 6/5), ("experimental", 13/10)]
  roastLevelBonus := []
  minimumThreshold := 9/20

/-- The complete rule table in the insertion order of
`initializeTypeRules` (13 entries).  In Go this is a
`map[string]TypeMappingRule`; the insertion order fixes one canonical
enumeration; nondeterministic iteration order is treated where the
relevant claim demands it. -/
def typeRulesList : List (String × TypeMappingRule) :=
  [("normal", normalRule), ("fire", fireRule), ("water", waterRule),
   ("grass", grassRule), ("electric", electricRule), ("ice", iceRule),
   ("poison", poisonRule), ("ground", groundRule), ("rock", rockRule),
   ("dark", darkRule), ("fairy", fairyRule), ("psychic", psychicRule),
   ("bug", bugRule)]

/-- Go map lookup `pm.typeRules[name]`. -/
def findRule (name : String) : Option TypeMappingRule :=
  (typeRulesList.find? (fun p => p.1 == name)).map (fun p => p.2)

/-- `pm.typeRules[name].MinimumThreshold` (Go zero value 0 if absent). -/
def thresholdOf (name : String) : ℚ :=
  match findRule name with
  | some r => r.minimumThreshold
  | none => 0

/-! ## Trait scorer (`pokemon_mapper.go` lines 303-411) -/

/-- The 12 `(name, value)` pairs of a trait vector, in the (identical)
order used by the `getTraitValue` switch (`pokemon_mapper.go` lines
364-393) and by `TastingTraits.Validate` (`src/unnamed/part_013` lines
49-75). -/
def traitPairs (t : TastingTraits) : List (String × Int) :=
  [("berry_intensity", t.berryIntensity),
   ("stonefruit_intensity", t.stonefruitIntensity),
   ("roast_intensity", t.roastIntensity),
   ("citrus_fruits_intensity", t.citrusFruitsIntensity),
   ("bitterness", t.bitterness),
   ("florality", t.florality),
   ("spice", t.spice),
   ("sweetness", t.sweetness),
   ("aromatic_intensity", t.aromaticIntensity),
   ("savory", t.savory),
   ("body", t.body),
   ("cleanliness", t.cleanliness)]

/-- `PokemonMapper.getTraitValue` (lines 364-393): Go `switch` over the
12 recognised trait names with default 0, written as the equivalent
first-match lookup. -/
def getTraitValue (t : TastingTraits) (traitName : String) : Int :=
  match (traitPairs t).find? (fun p => p.1 == traitName) with
  | some p => p.2
  | none => 0

/-- The contribution of one trait weight to the raw score
(`calculateTypeScore` lines 308-336): zero unless the trait value is at
least `min`; otherwise the value clamped to `max`, scaled by the
weight. -/
def traitContribution (t : TastingTraits) (tw : TraitWeight) : ℚ :=
  if tw.min ≤ getTraitValue t tw.trait then
    ((min (getTraitValue t tw.trait) tw.max : Int) : ℚ) / 10 * tw.weight * 10
  else 0

/-- The summed trait part of the raw score (primary then secondary
weights, identical formula for both). -/
def rawTraitScore (t : TastingTraits) (rule : TypeMappingRule) : ℚ :=
  ((rule.primaryTraits ++ rule.secondaryTraits).map (traitContribution t)).sum

/-- `maxPossibleScore` accumulated by `calculateTypeScore`: `weight*10`
for every trait weight, plus 20 iff the rule defines keywords. -/
def maxPossible (rule : TypeMappingRule) : ℚ :=
  ((rule.primaryTraits ++ rule.secondaryTraits).map (fun tw => tw.weight * 10)).sum
    + (if rule.keywordMatches.isEmpty then 0 else 20)

/-- `PokemonMapper.calculateKeywordScore` (lines 396-411): count of
non-empty notes containing (case-insensitively) at least one keyword,
divided by 5. -/
def calculateKeywordScore (tastingNotes : List String) (keywords : List String) : ℚ :=
  (((tastingNotes.filter (fun note =>
      note ≠ "" ∧ keywords.any (fun kw => strContains (strToLower note) kw))).length : ℚ)) / 5

/-- Go map lookup with multiplier application (`calculateTypeScore`
lines 346-353): multiply `v` by the bonus for `key` if present. -/
def applyBonus (v : ℚ) (tbl : List (String × ℚ)) (key : String) : ℚ :=
  match tbl.find? (fun p => p.1 == key) with
  | some p => v * p.2
  | none => v

/-- `PokemonMapper.calculateTypeScore` (lines 303-361). -/
def calculateTypeScore (c : Coffee) (rule : TypeMappingRule) : ℚ :=
  let raw := rawTraitScore c.tastingTraits rule
    + (if rule.keywordMatches.isEmpty then 0
       else calculateKeywordScore c.tastingNotes rule.keywordMatches * 20)
  let raw := applyBonus raw rule.processingBonus c.processingMethod
  let raw := applyBonus raw rule.roastLevelBonus c.roastLevel
  if 0 < maxPossible rule then min (raw / maxPossible rule) 1 else 0

/-- Per-category scores in rule-table insertion order
(`CalculatePokemonTypes` lines 270-281 builds this as a map and then a
slice). -/
def typeScoresList (c : Coffee) : List (String × ℚ) :=
  typeRulesList.map (fun p => (p.1, calculateTypeScore c p.2))

/-- `typeScores[name]` (Go map lookup, zero value 0). -/
def scoreOf (c : Coffee) (name : String) : ℚ :=
  match (typeScoresList c).find? (fun p => p.1 == name) with
  | some p => p.2
  | none => 0

/-! ## Category selection (`CalculatePokemonTypes`, lines 269-300)

Go builds the score slice by iterating a map (arbitrary order) and sorts
it with the unstable `sort.Slice` under the strict comparator
`Score i > Score j`.  Any list that is a permutation of the 13 scored
entries and is non-increasing in score is a possible result; `validOrder`
captures exactly those outcomes, and `sortDesc` (a stable insertion sort
on the insertion-order list) realises one of them, used as the canonical
resolution inside the pipeline model. -/

/-- The descending-score ordering used by the selection step. -/
def scoreGE (a b : String × ℚ) : Prop := b.2 ≤ a.2

instance : DecidableRel scoreGE := fun a b => inferInstanceAs (Decidable (b.2 ≤ a.2))

instance : IsTotal (String × ℚ) scoreGE := ⟨fun a b => le_total b.2 a.2⟩

instance : IsTrans (String × ℚ) scoreGE := ⟨fun _ _ _ h1 h2 => le_trans h2 h1⟩

/-- One canonical resolution of Go's unstable sort. -/
def sortDesc (l : List (String × ℚ)) : List (String × ℚ) :=
  l.insertionSort scoreGE

/-- The set of score orderings Go's `sort.Slice` may produce for coffee
`c`: permutations of the scored entries that are non-increasing in
score. -/
def validOrder (c : Coffee) (l : List (String × ℚ)) : Prop :=
  l.Perm (typeScoresList c) ∧ l.Sorted scoreGE

instance (c : Coffee) (l : List (String × ℚ)) : Decidable (validOrder c l) :=
  inferInstanceAs (Decidable (_ ∧ _))

/-- Primary/secondary extraction from a sorted score list
(`CalculatePokemonTypes` lines 287-299): primary defaults to "normal"
unless the top entry reaches its own threshold; secondary is the second
entry whenever it reaches 0.8 of its own threshold (the code never
compares it with the primary). -/
def selectFromSorted (l : List (String × ℚ)) : String × String :=
  let primary := match l with
    | a :: _ => if thresholdOf a.1 ≤ a.2 then a.1 else "normal"
    | [] => "normal"
  let secondary := match l with
    | _ :: b :: _ => if thresholdOf b.1 * (4/5) ≤ b.2 then b.1 else ""
    | _ => ""
  (primary, secondary)

/-- `PokemonMapper.CalculatePokemonTypes` (deterministic model: canonical
sort resolution).  The score map returned by the Go function is
`scoreOf c`. -/
def calculatePokemonTypes (c : Coffee) : String × String :=
  selectFromSorted (sortDesc (typeScoresList c))

/-- `PokemonMapper.GetTypeDescription` (`pokemon_mapper.go` lines
414-436). -/
def getTypeDescription (typeName : String) (c : Coffee) : String :=
  match findRule typeName with
  | none => "Unknown type: " ++ typeName
  | some rule =>
    let highTraits := (rule.primaryTraits.filter
      (fun tw => tw.min ≤ getTraitValue c.tastingTraits tw.trait)).map
        (fun tw => tw.trait)
    let base := "This coffee exhibits " ++ typeName ++ "-type characteristics"
    if highTraits.isEmpty then base
    else base ++ " with strong " ++ String.intercalate ", " highTraits

/-! ## Refiner response parsing (`service.LLMService`, `llm.go`) -/

/-- The hardcoded name list of `LLMService.fallbackParse` (line 166). -/
def fallbackPokemonNames : List String :=
  ["bulbasaur", "charmander", "squirtle", "pikachu", "jigglypuff"]

/-- `LLMService.fallbackParse` (lines 164-188): scan the response for the
first hardcoded name, default "bulbasaur", fixed confidence 0.5. -/
def fallbackParse (response : String) : LLMMappingResponse :=
  let selected := match fallbackPokemonNames.find?
      (fun n => strContains (strToLower response) n) with
    | some n => n
    | none => "bulbasaur"
  { selectedPokemon := selected
    confidence := 1/2
    description := "Fallback mapping due to parsing error"
    traitMapping := [⟨"general", "HP", "Basic fallback mapping"⟩] }

/-- The cleanup performed by `parseLLMResponse` before unmarshalling
(lines 145-149): trim whitespace and strip markdown code fences. -/
def cleanResponse (response : String) : String :=
  replaceAll (replaceAll (trimSpace response) "```json" "") "```" ""

/-- `LLMService.parseLLMResponse` (lines 143-161).  `unmarshal` stands
for `json.Unmarshal` into `LLMMappingResponse` (`none` = the cleaned
body is not parseable as the expected JSON shape).  The Go function
returns `(fallbackParse(response), nil)` — not an error — when
unmarshalling fails, so it is total. -/
def parseLLMResponse (unmarshal : String → Option LLMMappingResponse)
    (response : String) : LLMMappingResponse :=
  match unmarshal (cleanResponse response) with
  | some resp => resp
  | none => fallbackParse (cleanResponse response)

/-! ## Persistence model (`storage.MySQLPokemonStorage`)

The store state is the `pokemons` reference table (read-only, assumed
listed in id order, matching `ORDER BY id`) together with the persisted
`coffee_pokemon` rows. -/

/-- The persisted state visible to the Pokemon service. -/
structure PokemonStore where
  pokemons : List Pokemon
  mappings : List CoffeePokemon
deriving DecidableEq, Repr

/-- `MySQLPokemonStorage.GetPokemonByType` (lines 158-194):
`WHERE type LIKE '%t%'` with MySQL's default case-insensitive collation,
i.e. a case-insensitive substring match on the type string. -/
def getPokemonByType (st : PokemonStore) (pokemonType : String) : List Pokemon :=
  st.pokemons.filter (fun p => strContains (strToLower p.ptype) (strToLower pokemonType))

/-- `MySQLPokemonStorage.IsPokemonUsed` (lines 197-207): a Pokemon is
used iff a `coffee_pokemon` row carries its id. -/
def isPokemonUsed (st : PokemonStore) (pokemonID : Int) : Bool :=
  st.mappings.any (fun m => m.pokemonID == pokemonID)

/-- `MySQLPokemonStorage.CreateCoffeePokemon` (lines 225-251): a single
INSERT into `coffee_pokemon`.  The table (see `initPokemonTable`, lines
56-82) carries `PRIMARY KEY (id)` and the unique index
`idx_unique_pokemon` on `pokemon_id`, so the insert fails exactly when a
persisted row already has the same row id or the same `pokemon_id`. -/
def createCoffeePokemon (st : PokemonStore) (mapping : CoffeePokemon) :
    Except Unit PokemonStore :=
  if st.mappings.any (fun m => m.pokemonID == mapping.pokemonID)
      || st.mappings.any (fun m => m.id == mapping.id) then
    .error ()
  else
    .ok { st with mappings := st.mappings ++ [mapping] }

/-! ## Pokemon service (`service.PokemonService`, `src/unnamed/part_012`) -/

/-- Failure kinds of `PokemonService.MapCoffeeToPokemon`:
`noCandidates` = line 45 ("no Pokemon candidates found"),
`alternativeLookup` = `ensureUniquePokemon` line 232 ("failed to get
alternative Pokemon"), `exhausted` = line 246 ("already used and no
alternatives available"), `persistence` = line 107 ("failed to create
Pokemon mapping"). -/
inductive MapError where
  | noCandidates
  | alternativeLookup
  | exhausted
  | persistence
deriving DecidableEq, Repr

/-- A type-indexed candidate query that may fail: abstraction of
`s.storage.GetPokemonByType` including repository errors.  The fault-free
instantiation over a concrete store is `storeFetch`. -/
def storeFetch (st : PokemonStore) : String → Except Unit (List Pokemon) :=
  fun t => .ok (getPokemonByType st t)

/-- An errored query is consumed as an empty result
(`getTypedCandidates` logs and continues, lines 117-132). -/
def errToNil (r : Except Unit (List Pokemon)) : List Pokemon :=
  match r with
  | .ok l => l
  | .error _ => []

/-- `PokemonService.getTypedCandidates` (lines 113-148): primary-type
candidates then secondary-type candidates (errors dropped), baseline
"Normal" query only when the merged list is empty, capped at 10. -/
def getTypedCandidates (fetch : String → Except Unit (List Pokemon))
    (primaryType secondaryType : String) : List Pokemon :=
  let c1 := errToNil (fetch primaryType)
  let c2 := if secondaryType ≠ "" then errToNil (fetch secondaryType) else []
  let cands := c1 ++ c2
  let cands := if cands.isEmpty then errToNil (fetch "Normal") else cands
  if cands.length > 10 then cands.take 10 else cands

/-- The annotation emitted for high sweetness (`buildTraitMapping`
lines 178-184). -/
def sweetnessTraitMap : TraitMapping :=
  ⟨"sweetness", "HP", "High sweetness provides sustained energy like HP"⟩

/-- The annotation emitted for high bitterness (lines 185-191). -/
def bitternessTraitMap : TraitMapping :=
  ⟨"bitterness", "Attack", "Bold bitterness represents attacking flavors"⟩

/-- The annotation emitted for full body (lines 192-198). -/
def bodyTraitMap : TraitMapping :=
  ⟨"body", "Defense", "Full body provides defensive structure"⟩

/-- The annotation emitted for high citrus intensity (lines 199-205). -/
def citrusTraitMap : TraitMapping :=
  ⟨"citrus", "Speed", "Bright citrus notes provide quick, energetic speed"⟩

/-- The annotation emitted for high aromatic intensity (lines 206-212). -/
def aromaTraitMap : TraitMapping :=
  ⟨"aroma", "Special", "Complex aroma represents special characteristics"⟩

/-- `PokemonService.buildTraitMapping` (lines 175-215): one annotation
per fixed trait whose value is at least 7, in the fixed scan order.  The
`pokemon` argument is accepted and ignored, exactly as in the source. -/
def buildTraitMapping (traits : TastingTraits) (_pokemon : Pokemon) :
    List TraitMapping :=
  (if 7 ≤ traits.sweetness then [sweetnessTraitMap] else [])
    ++ (if 7 ≤ traits.bitterness then [bitternessTraitMap] else [])
    ++ (if 7 ≤ traits.body then [bodyTraitMap] else [])
    ++ (if 7 ≤ traits.citrusFruitsIntensity then [citrusTraitMap] else [])
    ++ (if 7 ≤ traits.aromaticIntensity then [aromaTraitMap] else [])

/-- `PokemonService.getBestTypeMatch` (lines 151-172).  Numeric
formatting inside the description template is abstracted by `toString`
of the rational. -/
def getBestTypeMatch (coffee : Coffee) (candidates : List Pokemon)
    (primaryType : String) (typeScore : ℚ) :
    Pokemon × ℚ × String × List TraitMapping :=
  match candidates with
  | [] =>
    (⟨1, "Bulbasaur", "Grass/Poison", "", ⟨0, 0, 0, 0, 0⟩,
       "A basic Pokemon for coffee mapping"⟩,
     1/2, "Fallback mapping - no candidates available", [])
  | selected :: _ =>
    let confidence := typeScore * (9/10)
    let description := "Type-based mapping: " ++ selected.name ++ " ("
      ++ selected.ptype ++ "-type) matches coffee's " ++ primaryType
      ++ " characteristics with " ++ toString (confidence * 100) ++ "% confidence"
    (selected, confidence, description, buildTraitMapping coffee.tastingTraits selected)

/-- The candidate-selection branch of `MapCoffeeToPokemon` (lines
49-79).  `llm = none` models `s.llmService == nil`; `some (.error ())`
models a transport/status/outer-decode failure of the refiner call;
`some (.ok body)` models a delivered response body, which is then parsed
by `parseLLMResponse` (total — see there). -/
def selectionStep (unmarshal : String → Option LLMMappingResponse)
    (coffee : Coffee) (candidates : List Pokemon) (primaryType : String)
    (typeScore : ℚ) (llm : Option (Except Unit String)) :
    Pokemon × ℚ × String × List TraitMapping :=
  match llm with
  | none => getBestTypeMatch coffee candidates primaryType typeScore
  | some (.error _) => getBestTypeMatch coffee candidates primaryType typeScore
  | some (.ok body) =>
    let resp := parseLLMResponse unmarshal body
    match candidates.find?
        (fun cand => strToLower cand.name == strToLower resp.selectedPokemon) with
    | some cand => (cand, resp.confidence, resp.description, resp.traitMapping)
    | none => getBestTypeMatch coffee candidates primaryType typeScore

/-- Outcomes of `ensureUniquePokemon`. -/
inductive EnsureError where
  | alternativeLookup
  | exhausted
deriving DecidableEq, Repr

/-- `PokemonService.ensureUniquePokemon` (lines 219-247): if the chosen
Pokemon is unused keep it; otherwise fetch all Pokemon of its type
string and take the first unused one; if none remains, fail with
exhaustion.  (The Go loop skips alternatives whose `IsPokemonUsed` call
errors; the registry read is modelled fault-free, so the skip branch is
not reachable here.) -/
def ensureUniquePokemon (fetch : String → Except Unit (List Pokemon))
    (st : PokemonStore) (pokemon : Pokemon) : Except EnsureError Pokemon :=
  if isPokemonUsed st pokemon.id then
    match fetch pokemon.ptype with
    | .error _ => .error .alternativeLookup
    | .ok alternatives =>
      match alternatives.find? (fun alt => !isPokemonUsed st alt.id) with
      | some alt => .ok alt
      | none => .error .exhausted
  else
    .ok pokemon

/-- `PokemonService.calculateLevel` (lines 250-253). -/
def calculateLevel (rating : Int) : Int := rating * 5

/-- The persistence step of `MapCoffeeToPokemon` (lines 106-109): the
single storage write, wrapping an insert failure as a persistence
error. -/
def persistMapping (st : PokemonStore) (mapping : CoffeePokemon) :
    Except MapError (CoffeePokemon × PokemonStore) :=
  match createCoffeePokemon st mapping with
  | .error _ => .error .persistence
  | .ok st' => .ok (mapping, st')

/-- `PokemonService.MapCoffeeToPokemon` (lines 37-110), sequential
model.  `unmarshal` abstracts the JSON decoder, `fetch` the candidate
repository queries (the registry read and the final insert run against
the concrete store `st`), `llm` the refiner call outcome, `newID` the
fresh UUID of line 94 and `now` the assembly time of line 103. -/
def mapCoffeeToPokemon (unmarshal : String → Option LLMMappingResponse)
    (fetch : String → Except Unit (List Pokemon)) (st : PokemonStore)
    (coffee : Coffee) (llm : Option (Except Unit String)) (newID : String)
    (now : Nat) : Except MapError (CoffeePokemon × PokemonStore) :=
  let types := calculatePokemonTypes coffee
  let primaryType := types.1
  let secondaryType := types.2
  let candidates := getTypedCandidates fetch primaryType secondaryType
  if candidates.isEmpty then .error .noCandidates
  else
    let sel := selectionStep unmarshal coffee candidates primaryType
      (scoreOf coffee primaryType) llm
    match ensureUniquePokemon fetch st sel.1 with
    | .error .alternativeLookup => .error .alternativeLookup
    | .error .exhausted => .error .exhausted
    | .ok finalPokemon =>
      let typeDescription := getTypeDescription primaryType coffee
        ++ (if secondaryType ≠ "" then " and " ++ getTypeDescription secondaryType coffee
            else "")
      let mapping : CoffeePokemon :=
        { id := newID
          coffeeID := coffee.id
          pokemonID := finalPokemon.id
          pokemonName := finalPokemon.name
          nickname := ""
          level := calculateLevel coffee.rating
          mappingConfidence := sel.2.1
          llmDescription := sel.2.2.1 ++ "\n\nType Analysis: " ++ typeDescription
          traitMapping := sel.2.2.2
          createdAt := now }
      persistMapping st mapping

/-- One inbound mapping request (coffee plus the per-request
environment: refiner outcome, fresh row id, assembly time). -/
structure MapCall where
  coffee : Coffee
  llm : Option (Except Unit String)
  newID : String
  now : Nat

/-- `MapCoffeeToPokemon` against a concrete store with fault-free
candidate queries. -/
def mapCoffeeStore (unmarshal : String → Option LLMMappingResponse)
    (st : PokemonStore) (call : MapCall) :
    Except MapError (CoffeePokemon × PokemonStore) :=
  mapCoffeeToPokemon unmarshal (storeFetch st) st call.coffee call.llm
    call.newID call.now

/-- The store after one request: updated on success, untouched on
failure (the only storage write in `MapCoffeeToPokemon` is the final
insert). -/
def stepStore (unmarshal : String → Option LLMMappingResponse)
    (st : PokemonStore) (call : MapCall) : PokemonStore :=
  match mapCoffeeStore unmarshal st call with
  | .ok (_, st') => st'
  | .error _ => st

/-- Sequential processing of a list of mapping requests. -/
def runSeq (unmarshal : String → Option LLMMappingResponse)
    (st : PokemonStore) : List MapCall → PokemonStore
  | [] => st
  | call :: rest => runSeq unmarshal (stepStore unmarshal st call) rest

/-- No two persisted `coffee_pokemon` rows share a `pokemon_id`
(candidate id). -/
def UniqueMappings (st : PokemonStore) : Prop :=
  st.mappings.Pairwise (fun a b => a.pokemonID ≠ b.pokemonID)

instance (st : PokemonStore) : Decidable (UniqueMappings st) :=
  inferInstanceAs (Decidable (List.Pairwise _ _))

/-! ## Coffee validation (`models.Coffee.Validate`, `src/unnamed/part_013`) -/

/-- The allowed roast levels (`ValidateRoastLevel`, line 90). -/
def validRoastLevels : List String :=
  ["light", "medium", "dark", "light medium", "medium dark", "unclear"]

/-- The allowed processing methods (`ValidateProcessingMethod`,
line 79). -/
def validProcessingMethods : List String :=
  ["washed", "natural", "honey", "coferment", "experimental"]

/-- `Coffee.ValidateRoastLevel` (lines 88-97): lowercases the receiver's
field, then checks membership.  Returns the updated receiver and the
error, if any. -/
def validateRoastLevel (c : Coffee) : Coffee × Option String :=
  let c' := { c with roastLevel := strToLower c.roastLevel }
  if validRoastLevels.contains c'.roastLevel then (c', none)
  else (c', some ("invalid roast level: " ++ c'.roastLevel))

/-- `Coffee.ValidateProcessingMethod` (lines 77-86). -/
def validateProcessingMethod (c : Coffee) : Coffee × Option String :=
  let c' := { c with processingMethod := strToLower c.processingMethod }
  if validProcessingMethods.contains c'.processingMethod then (c', none)
  else (c', some ("invalid processing method: " ++ c'.processingMethod))

/-- `TastingTraits.Validate`: first out-of-range trait produces the
error. -/
def tastingTraitsValidate (t : TastingTraits) : Option String :=
  (traitPairs t).findSome? (fun p =>
    if p.2 < 0 ∨ 10 < p.2 then
      some (p.1 ++ " must be between 0 and 10, got " ++ toString p.2)
    else none)

/-- All 12 trait values lie in [0, 10]. -/
def TraitsInRange (t : TastingTraits) : Prop :=
  ∀ p ∈ traitPairs t, 0 ≤ p.2 ∧ p.2 ≤ 10

instance (t : TastingTraits) : Decidable (TraitsInRange t) :=
  List.decidableBAll _ _

/-- `Coffee.Validate` (lines 102-143), including the receiver mutation
performed through `ValidateRoastLevel` / `ValidateProcessingMethod`.
Returns the receiver as left after the call, with the error if any.
(The Go check `len(c.TastingNotes) > 5` is on a `[5]string`, hence
constant false, and is omitted.) -/
def coffeeValidate (c : Coffee) : Coffee × Option String :=
  if c.name = "" then (c, some "name cannot be empty")
  else if c.rating < 0 ∨ 10 < c.rating then (c, some "ratings must be out of 10")
  else
    match (if c.roastLevel ≠ "" then validateRoastLevel c else (c, none)) with
    | (c1, some e) => (c1, some e)
    | (c1, none) =>
      match (if c1.processingMethod ≠ "" then validateProcessingMethod c1
             else (c1, none)) with
      | (c2, some e) => (c2, some e)
      | (c2, none) =>
        if c2.endTime.minutes < 0 ∨ c2.endTime.seconds < 0 ∨ 60 ≤ c2.endTime.seconds then
          (c2, some "invalid draw down time")
        else
          match tastingTraitsValidate c2.tastingTraits with
          | some e => (c2, some e)
          | none => (c2, none)

/-! ## Derived notions and concrete fixtures used by the verification -/

/-- The candidate handed to the uniqueness enforcer by
`MapCoffeeToPokemon` (the `selectedPokemon` of line 82). -/
def chosenCandidate (unmarshal : String → Option LLMMappingResponse)
    (st : PokemonStore) (call : MapCall) : Pokemon :=
  (selectionStep unmarshal call.coffee
    (getTypedCandidates (storeFetch st) (calculatePokemonTypes call.coffee).1
      (calculatePokemonTypes call.coffee).2)
    (calculatePokemonTypes call.coffee).1
    (scoreOf call.coffee (calculatePokemonTypes call.coffee).1) call.llm).1

/-- The confidence stored by a successful mapping result. -/
def mappedConfidence (r : Except MapError (CoffeePokemon × PokemonStore)) :
    Option ℚ :=
  match r with
  | .ok (m, _) => some m.mappingConfidence
  | .error _ => none

/-- A rule's trait weights, clamp bounds and multiplier tables are all
nonnegative.  Eleven of the thirteen table rules satisfy this; the
electric and dark rules do not (negative secondary weights). -/
def RuleNonNeg (r : TypeMappingRule) : Prop :=
  (∀ tw ∈ r.primaryTraits ++ r.secondaryTraits, 0 ≤ tw.weight ∧ 0 ≤ tw.max)
    ∧ (∀ p ∈ r.processingBonus, 0 ≤ p.2) ∧ (∀ p ∈ r.roastLevelBonus, 0 ≤ p.2)

instance (r : TypeMappingRule) : Decidable (RuleNonNeg r) := by
  unfold RuleNonNeg; infer_instance

/-- The 12 trait names recognised by `getTraitValue`. -/
def recognizedTraitNames : List String :=
  ["berry_intensity", "stonefruit_intensity", "roast_intensity",
   "citrus_fruits_intensity", "bitterness", "florality", "spice", "sweetness",
   "aromatic_intensity", "savory", "body", "cleanliness"]

/-- All-zero trait vector. -/
def zeroTraits : TastingTraits := ⟨0, 0, 0, 0, 0, 0, 0, 0, 0, 0, 0, 0⟩

/-- Fixture coffee record builder for the concrete witnesses below. -/
def testCoffee (t : TastingTraits) (roast proc : String) : Coffee :=
  { id := "c1", name := "test", origin := "", roaster := "", variety := "",
    roastLevel := roast, processingMethod := proc,
    tastingNotes := ["", "", "", "", ""], tastingTraits := t, rating := 8,
    recipe := [], dripper := "", endTime := ⟨2, 30⟩, createdAt := 0,
    updatedAt := 0 }

/-- Fixture: all traits zero. -/
def plainCoffee : Coffee := testCoffee zeroTraits "" ""

/-- Fixture: cleanliness 6, body 4, spice 9 — the top score (bug) misses
its threshold while "normal" sits second above 0.8 of its own. -/
def spicedCoffee : Coffee :=
  testCoffee { zeroTraits with cleanliness := 6, body := 4, spice := 9 } "" ""

/-- Fixture: body 10, all else zero — the electric rule's negative body
weight drives its score below zero. -/
def fullBodyCoffee : Coffee :=
  testCoffee { zeroTraits with body := 10 } "" ""

/-- Fixture: a dark-roast profile on which the fire and dark rules both
saturate at score 1 (an exact top-two tie). -/
def roastedCoffee : Coffee :=
  testCoffee ⟨0, 0, 10, 0, 9, 0, 10, 0, 0, 10, 10, 0⟩ "dark" ""

/-- Fixture: trait vector whose 13 category scores are pairwise
distinct. -/
def distinctCoffee : Coffee := testCoffee ⟨6, 7, 6, 7, 5, 7, 6, 7, 7, 6, 5, 7⟩ "" ""

/-- The scores of `roastedCoffee` sorted with the fire/dark tie broken
one way. -/
def tieOrderA : List (String × ℚ) :=
  [("fire", 1), ("dark", 1), ("ground", 32/45), ("poison", 53/90),
   ("bug", 5/13), ("normal", 3/10), ("rock", 27/190), ("water", 3/26),
   ("grass", 0), ("ice", 0), ("fairy", 0), ("psychic", 0), ("electric", -1/14)]

/-- The same scores with the fire/dark tie broken the other way. -/
def tieOrderB : List (String × ℚ) :=
  [("dark", 1), ("fire", 1), ("ground", 32/45), ("poison", 53/90),
   ("bug", 5/13), ("normal", 3/10), ("rock", 27/190), ("water", 3/26),
   ("grass", 0), ("ice", 0), ("fairy", 0), ("psychic", 0), ("electric", -1/14)]

/-- Fixture candidate of a type string matching the baseline "normal"
query. -/
def pidgey : Pokemon := ⟨16, "Pidgey", "Normal/Flying", "", ⟨0, 0, 0, 0, 0⟩, ""⟩

/-- Fixture store in which `pidgey` is the sole candidate and is already
used. -/
def usedStore : PokemonStore :=
  ⟨[pidgey], [⟨"m0", "c0", 16, "Pidgey", "", 40, 0, "", [], 0⟩]⟩

/-- Fixture store holding one unused candidate named "Bulbasaur" — the
default selection of the refiner's fallback parser. -/
def bulbStore : PokemonStore :=
  ⟨[⟨1, "Bulbasaur", "Normal", "", ⟨0, 0, 0, 0, 0⟩, ""⟩], []⟩

/-- Fixture store with one unused candidate whose name differs from
every fallback-parser name. -/
def pidgeyStore : PokemonStore := ⟨[pidgey], []⟩

/-- Traits with sweetness exactly 7 (the boundary of the annotation
scan). -/
def sevenSweetTraits : TastingTraits := { zeroTraits with sweetness := 7 }

/-- Fixture coffee with sweetness exactly 7. -/
def sevenSweetCoffee : Coffee := testCoffee sevenSweetTraits "" ""

/-- Fixture request: the all-zero coffee with the refiner disabled. -/
def usedCall : MapCall := ⟨plainCoffee, none, "m1", 1⟩

/-- The scores of `distinctCoffee` in descending order (the unique
valid sort order, as the scores are pairwise distinct). -/
def distinctOrder : List (String × ℚ) :=
  [("normal", 13/22), ("grass", 119/220), ("electric", 37/70), ("rock", 42/95),
   ("psychic", 61/140), ("bug", 11/26), ("fairy", 67/200), ("ice", 49/160),
   ("ground", 13/45), ("water", 27/130), ("poison", 31/180), ("fire", 12/109),
   ("dark", -1/14)]

/-- A trait weight referencing a name outside the recognised twelve. -/
def acidityWeight : TraitWeight := ⟨"acidity", 2, 5, 9⟩

/-- Fixture coffee with mixed-case roast level and processing method. -/
def mixedCaseCoffee : Coffee := testCoffee zeroTraits "Light" "Washed"

/-- An inert mapping record used to instantiate record-typed binders in
witnesses. -/
def emptyMapping : CoffeePokemon := ⟨"", "", 0, "", "", 0, 0, "", [], 0⟩

/-! ## Supporting lemmas -/

/-- `strToLower` on the empty string. -/
theorem strToLower_empty : strToLower "" = "" := rfl

/-- Membership in an if-guarded singleton. -/
theorem mem_ite_singleton {α : Type} {c : Prop} [Decidable c] (x m : α) :
    (m ∈ if c then [x] else []) ↔ c ∧ m = x := by
  split
  · next h => simp [h]
  · next h => simp [h]

/-- There are 13 scored categories. -/
theorem typeScoresList_length (c : Coffee) : (typeScoresList c).length = 13 := by
  simp [typeScoresList, typeRulesList]

/-- The normalised score never exceeds 1, for any coffee and any rule. -/
theorem calculateTypeScore_le_one (c : Coffee) (rule : TypeMappingRule) :
    calculateTypeScore c rule ≤ 1 := by
  unfold calculateTypeScore
  dsimp only
  split
  · exact min_le_right _ _
  · norm_num

/-- Trait lookups are nonnegative on in-range trait vectors. -/
theorem getTraitValue_nonneg (t : TastingTraits) (h : TraitsInRange t)
    (name : String) : 0 ≤ getTraitValue t name := by
  unfold getTraitValue
  cases hf : (traitPairs t).find? (fun p => p.1 == name) with
  | none => simp
  | some p => simpa using (h p (List.mem_of_find?_eq_some hf)).1

/-- A trait weight with nonnegative weight and clamp bound contributes
nonnegatively. -/
theorem traitContribution_nonneg (t : TastingTraits) (tw : TraitWeight)
    (ht : 0 ≤ getTraitValue t tw.trait) (hw : 0 ≤ tw.weight) (hm : 0 ≤ tw.max) :
    0 ≤ traitContribution t tw := by
  unfold traitContribution
  split
  · have h0 : (0 : ℚ) ≤ ((min (getTraitValue t tw.trait) tw.max : Int) : ℚ) := by
      exact_mod_cast le_min ht hm
    refine mul_nonneg (mul_nonneg (div_nonneg h0 (by norm_num)) hw) (by norm_num)
  · exact le_refl 0

/-- The summed trait score is nonnegative when all weights and bounds
are. -/
theorem rawTraitScore_nonneg (t : TastingTraits) (rule : TypeMappingRule)
    (htr : TraitsInRange t)
    (hw : ∀ tw ∈ rule.primaryTraits ++ rule.secondaryTraits,
      0 ≤ tw.weight ∧ 0 ≤ tw.max) :
    0 ≤ rawTraitScore t rule := by
  unfold rawTraitScore
  refine List.sum_nonneg ?_
  intro x hx
  obtain ⟨tw, htw, rfl⟩ := List.mem_map.mp hx
  exact traitContribution_nonneg t tw (getTraitValue_nonneg t htr tw.trait)
    (hw tw htw).1 (hw tw htw).2

/-- The keyword score is a count divided by 5, hence nonnegative. -/
theorem calculateKeywordScore_nonneg (notes keywords : List String) :
    0 ≤ calculateKeywordScore notes keywords := by
  unfold calculateKeywordScore
  positivity

/-- A multiplier table with nonnegative entries preserves
nonnegativity. -/
theorem applyBonus_nonneg (v : ℚ) (tbl : List (String × ℚ)) (key : String)
    (hv : 0 ≤ v) (htbl : ∀ p ∈ tbl, 0 ≤ p.2) : 0 ≤ applyBonus v tbl key := by
  unfold applyBonus
  split
  · next p heq => exact mul_nonneg hv (htbl p (List.mem_of_find?_eq_some heq))
  · exact hv

/-- For an all-nonnegative rule the score is bounded below by 0. -/
theorem calculateTypeScore_nonneg (c : Coffee) (rule : TypeMappingRule)
    (htr : TraitsInRange c.tastingTraits) (hr : RuleNonNeg rule) :
    0 ≤ calculateTypeScore c rule := by
  obtain ⟨hw, hp, hro⟩ := hr
  unfold calculateTypeScore
  dsimp only
  have h1 : 0 ≤ rawTraitScore c.tastingTraits rule
      + (if rule.keywordMatches.isEmpty then 0
         else calculateKeywordScore c.tastingNotes rule.keywordMatches * 20) := by
    have h0 := rawTraitScore_nonneg c.tastingTraits rule htr hw
    have hk : 0 ≤ (if rule.keywordMatches.isEmpty then (0:ℚ)
        else calculateKeywordScore c.tastingNotes rule.keywordMatches * 20) := by
      split
      · exact le_refl 0
      · exact mul_nonneg (calculateKeywordScore_nonneg _ _) (by norm_num)
    linarith
  have h2 := applyBonus_nonneg _ rule.processingBonus c.processingMethod h1 hp
  have h3 := applyBonus_nonneg _ rule.roastLevelBonus c.roastLevel h2 hro
  split
  · next hpos => exact le_min (div_nonneg h3 (le_of_lt hpos)) (by norm_num)
  · exact le_refl 0

/-- Two valid sort orders with pairwise-distinct scores coincide. -/
theorem validOrder_eq_of_distinct (c : Coffee) (l1 l2 : List (String × ℚ))
    (h1 : validOrder c l1) (h2 : validOrder c l2)
    (hd : (typeScoresList c).Pairwise (fun a b => a.2 ≠ b.2)) : l1 = l2 := by
  obtain ⟨hp1, hs1⟩ := h1
  obtain ⟨hp2, hs2⟩ := h2
  have hd1 : l1.Pairwise (fun a b => a.2 ≠ b.2) :=
    hp1.symm.pairwise hd (fun h => Ne.symm h)
  have hd2 : l2.Pairwise (fun a b => a.2 ≠ b.2) :=
    hp2.symm.pairwise hd (fun h => Ne.symm h)
  have hst1 : l1.Pairwise (fun a b : String × ℚ => b.2 < a.2) :=
    (hs1.and hd1).imp (fun h => lt_of_le_of_ne h.1 (fun e => h.2 e.symm))
  have hst2 : l2.Pairwise (fun a b : String × ℚ => b.2 < a.2) :=
    (hs2.and hd2).imp (fun h => lt_of_le_of_ne h.1 (fun e => h.2 e.symm))
  haveI : IsAntisymm (String × ℚ) (fun a b => b.2 < a.2) :=
    ⟨fun a b hab hba => absurd (lt_trans hab hba) (lt_irrefl _)⟩
  exact List.eq_of_perm_of_sorted (hp1.trans hp2.symm) hst1 hst2

/-- A successful insert pins down the new store and guarantees the
inserted candidate id was fresh (the unique-index guarantee). -/
theorem persistMapping_ok_inv (st : PokemonStore) (mapping m : CoffeePokemon)
    (st' : PokemonStore) (h : persistMapping st mapping = .ok (m, st')) :
    m = mapping ∧ st'.pokemons = st.pokemons ∧ st'.mappings = st.mappings ++ [m] ∧
      ∀ x ∈ st.mappings, x.pokemonID ≠ m.pokemonID := by
  unfold persistMapping at h
  split at h
  · simp at h
  · next st2 hc =>
    simp only [Except.ok.injEq, Prod.mk.injEq] at h
    obtain ⟨hm, hst⟩ := h
    subst hm
    unfold createCoffeePokemon at hc
    split at hc
    · simp at hc
    · next hcond =>
      simp only [Except.ok.injEq] at hc
      rw [← hc] at hst
      subst hst
      simp only [Bool.or_eq_true, not_or] at hcond
      refine ⟨rfl, rfl, rfl, ?_⟩
      intro x hx he
      have hany : st.mappings.any (fun mm => mm.pokemonID == mapping.pokemonID)
          = true := List.any_eq_true.mpr ⟨x, hx, by simp [he]⟩
      exact absurd hany (by simpa using hcond.1)

/-- Every successful mapping run went through the persistence step. -/
theorem mapCoffeeToPokemon_ok_persist (unmarshal : String → Option LLMMappingResponse)
    (fetch : String → Except Unit (List Pokemon)) (st : PokemonStore)
    (coffee : Coffee) (llm : Option (Except Unit String)) (newID : String)
    (now : Nat) (m : CoffeePokemon) (st' : PokemonStore)
    (h : mapCoffeeToPokemon unmarshal fetch st coffee llm newID now = .ok (m, st')) :
    ∃ mapping, persistMapping st mapping = .ok (m, st') := by
  simp only [mapCoffeeToPokemon] at h
  split at h
  · simp at h
  · split at h
    · simp at h
    · simp at h
    · exact ⟨_, h⟩

/-- A successful mapping run appends exactly one record whose candidate
id was not yet persisted. -/
theorem mapCoffeeToPokemon_ok_inv (unmarshal : String → Option LLMMappingResponse)
    (fetch : String → Except Unit (List Pokemon)) (st : PokemonStore)
    (coffee : Coffee) (llm : Option (Except Unit String)) (newID : String)
    (now : Nat) (m : CoffeePokemon) (st' : PokemonStore)
    (h : mapCoffeeToPokemon unmarshal fetch st coffee llm newID now = .ok (m, st')) :
    st'.pokemons = st.pokemons ∧ st'.mappings = st.mappings ++ [m] ∧
      ∀ x ∈ st.mappings, x.pokemonID ≠ m.pokemonID := by
  obtain ⟨mapping, hp⟩ := mapCoffeeToPokemon_ok_persist unmarshal fetch st coffee
    llm newID now m st' h
  obtain ⟨_, h1, h2, h3⟩ := persistMapping_ok_inv st mapping m st' hp
  exact ⟨h1, h2, h3⟩

/-- One request preserves candidate-id uniqueness of the store. -/
theorem stepStore_preserves (unmarshal : String → Option LLMMappingResponse)
    (st : PokemonStore) (call : MapCall) (h : UniqueMappings st) :
    UniqueMappings (stepStore unmarshal st call) := by
  unfold stepStore
  cases hc : mapCoffeeStore unmarshal st call with
  | error e => exact h
  | ok p =>
    obtain ⟨m, st'⟩ := p
    obtain ⟨_, h2, h3⟩ := mapCoffeeToPokemon_ok_inv unmarshal (storeFetch st) st
      call.coffee call.llm call.newID call.now m st' hc
    unfold UniqueMappings at h ⊢
    rw [h2, List.pairwise_append]
    refine ⟨h, List.pairwise_singleton _ _, ?_⟩
    intro a ha b hb
    simp only [List.mem_singleton] at hb
    subst hb
    exact h3 a ha

/-- The confidence produced by the rule-based selector on a non-empty
shortlist. -/
theorem getBestTypeMatch_confidence (coffee : Coffee) (cands : List Pokemon)
    (pt : String) (s : ℚ) (h : cands ≠ []) :
    (getBestTypeMatch coffee cands pt s).2.1 = s * (9/10) := by
  cases cands with
  | nil => exact absurd rfl h
  | cons a rest => rfl

/-- `TastingTraits.Validate` accepts every in-range trait vector. -/
theorem tastingTraitsValidate_none (t : TastingTraits) (h : TraitsInRange t) :
    tastingTraitsValidate t = none := by
  unfold tastingTraitsValidate
  rw [List.findSome?_eq_none_iff]
  intro p hp
  have := h p hp
  rw [if_neg (by omega)]

/-! ## Claim theorems -/

/-- C1.  Starting from any store in which no two persisted
`coffee_pokemon` rows share a `pokemon_id`, every sequence of
sequentially processed `MapCoffeeToPokemon` requests — successful
requests appending their record, failed ones leaving the store
untouched — preserves that property: after any number of operations no
two persisted mapping records share a candidate id.  The property is
enforced by the persistence boundary (the unique index consulted by
`createCoffeePokemon`), for every refiner outcome and decoder
behaviour. -/
theorem runSeq_preserves_uniqueMappings
    (unmarshal : String → Option LLMMappingResponse) (st : PokemonStore)
    (calls : List MapCall) (h : UniqueMappings st) :
    UniqueMappings (runSeq unmarshal st calls) := by
  induction calls generalizing st with
  | nil => exact h
  | cons call rest ih =>
    exact ih (stepStore unmarshal st call) (stepStore_preserves unmarshal st call h)

/-- C2 (amended).  For every coffee whose 12 trait values lie in [0,10]
and every rule of the static 13-entry table, the computed score is at
most 1; and it is at least 0 whenever the rule's trait weights, clamp
bounds and multiplier tables are all nonnegative (true of 11 of the 13
rules — the electric and dark rules carry a negative secondary weight
and can produce scores below 0, see the counterexample). -/
theorem calculateTypeScore_bounds (c : Coffee)
    (htr : TraitsInRange c.tastingTraits) :
    ∀ r ∈ typeRulesList, calculateTypeScore c r.2 ≤ 1 ∧
      (RuleNonNeg r.2 → 0 ≤ calculateTypeScore c r.2) :=
  fun r _ => ⟨calculateTypeScore_le_one c r.2,
    fun hr => calculateTypeScore_nonneg c r.2 htr hr⟩

/-- C3 (amended).  An unparseable refiner response body never fails the
request, but it reaches the rule-based path (and hence the confidence
`primaryScore * 0.9`) only when the name substituted by the heuristic
fallback parser matches no candidate case-insensitively; in that case
the run is identical to a run with the refiner disabled, and any
persisted record carries confidence = primary score × 0.9.  (When the
substituted name does match a candidate, the record keeps the parser's
fixed 0.5 confidence — see the counterexample.) -/
theorem unparseable_unmatched_fallback
    (unmarshal : String → Option LLMMappingResponse)
    (fetch : String → Except Unit (List Pokemon)) (st : PokemonStore)
    (coffee : Coffee) (body newID : String) (now : Nat) (m : CoffeePokemon)
    (st' : PokemonStore)
    (hparse : unmarshal (cleanResponse body) = none)
    (hmatch : ∀ cand ∈ getTypedCandidates fetch (calculatePokemonTypes coffee).1
        (calculatePokemonTypes coffee).2,
      strToLower cand.name
        ≠ strToLower (fallbackParse (cleanResponse body)).selectedPokemon) :
    mapCoffeeToPokemon unmarshal fetch st coffee (some (.ok body)) newID now
      = mapCoffeeToPokemon unmarshal fetch st coffee none newID now ∧
    (mapCoffeeToPokemon unmarshal fetch st coffee (some (.ok body)) newID now
        = .ok (m, st') →
      m.mappingConfidence
        = scoreOf coffee (calculatePokemonTypes coffee).1 * (9/10)) := by
  have hsel : selectionStep unmarshal coffee
      (getTypedCandidates fetch (calculatePokemonTypes coffee).1
        (calculatePokemonTypes coffee).2)
      (calculatePokemonTypes coffee).1
      (scoreOf coffee (calculatePokemonTypes coffee).1) (some (.ok body))
      = selectionStep unmarshal coffee
        (getTypedCandidates fetch (calculatePokemonTypes coffee).1
          (calculatePokemonTypes coffee).2)
        (calculatePokemonTypes coffee).1
        (scoreOf coffee (calculatePokemonTypes coffee).1) none := by
    unfold selectionStep parseLLMResponse
    dsimp only
    rw [hparse]
    dsimp only
    have hfind : (getTypedCandidates fetch (calculatePokemonTypes coffee).1
        (calculatePokemonTypes coffee).2).find?
          (fun cand => strToLower cand.name
            == strToLower (fallbackParse (cleanResponse body)).selectedPokemon)
        = none := by
      rw [List.find?_eq_none]
      intro cand hc
      simpa using hmatch cand hc
    rw [hfind]
  have heq : mapCoffeeToPokemon unmarshal fetch st coffee (some (.ok body)) newID now
      = mapCoffeeToPokemon unmarshal fetch st coffee none newID now := by
    simp only [mapCoffeeToPokemon]
    rw [hsel]
  refine ⟨heq, ?_⟩
  intro hok
  rw [heq] at hok
  simp only [mapCoffeeToPokemon] at hok
  split at hok
  · simp at hok
  · next hne =>
    split at hok
    · simp at hok
    · simp at hok
    · next fp hens =>
      obtain ⟨hm, _, _, _⟩ := persistMapping_ok_inv st _ m st' hok
      rw [hm]
      show (selectionStep unmarshal coffee
        (getTypedCandidates fetch (calculatePokemonTypes coffee).1
          (calculatePokemonTypes coffee).2)
        (calculatePokemonTypes coffee).1
        (scoreOf coffee (calculatePokemonTypes coffee).1) none).2.1 = _
      exact getBestTypeMatch_confidence coffee _ _ _
        (by simpa [List.isEmpty_iff] using hne)

/-- C4 (amended).  `CalculatePokemonTypes` returns as primary the
top-scoring category when its score reaches its own threshold and the
baseline "normal" otherwise, and as secondary the second entry of the
sorted list whenever its score reaches 0.8 of its own threshold — with
no comparison against the returned primary, so the secondary may
coincide with a defaulted primary (see the counterexample). -/
theorem calculatePokemonTypes_selects (c : Coffee) :
    ∃ a b rest, sortDesc (typeScoresList c) = a :: b :: rest ∧
      (∀ p ∈ typeScoresList c, p.2 ≤ a.2) ∧
      calculatePokemonTypes c =
        ((if thresholdOf a.1 ≤ a.2 then a.1 else "normal"),
         (if thresholdOf b.1 * (4/5) ≤ b.2 then b.1 else "")) := by
  have hperm := List.perm_insertionSort scoreGE (typeScoresList c)
  have hsorted := List.sorted_insertionSort scoreGE (typeScoresList c)
  have hlen : (sortDesc (typeScoresList c)).length = 13 := by
    rw [sortDesc, hperm.length_eq, typeScoresList_length]
  rcases hs : sortDesc (typeScoresList c) with _ | ⟨a, _ | ⟨b, rest⟩⟩
  · rw [hs] at hlen; simp at hlen
  · rw [hs] at hlen; simp at hlen
  have hsorted' : List.Sorted scoreGE (a :: b :: rest) := by
    rw [sortDesc] at hs; rw [hs] at hsorted; exact hsorted
  refine ⟨a, b, rest, rfl, ?_, ?_⟩
  · intro p hp
    have hp' : p ∈ sortDesc (typeScoresList c) := by
      rw [sortDesc]; exact (hperm.mem_iff).mpr hp
    rw [hs] at hp'
    rcases List.mem_cons.mp hp' with rfl | h
    · exact le_refl _
    · exact (List.sorted_cons.mp hsorted').1 p h
  · rw [calculatePokemonTypes, hs]
    rfl

/-- C5.  When the candidate handed to the uniqueness enforcer is already
used and every candidate sharing its type string is also used,
`MapCoffeeToPokemon` fails with the exhaustion error and the store —
used-candidate registry and mapping rows alike — is left exactly as it
was. -/
theorem mapCoffee_exhaustion (unmarshal : String → Option LLMMappingResponse)
    (st : PokemonStore) (call : MapCall)
    (hne : ¬(getTypedCandidates (storeFetch st) (calculatePokemonTypes call.coffee).1
        (calculatePokemonTypes call.coffee).2).isEmpty = true)
    (hused : isPokemonUsed st (chosenCandidate unmarshal st call).id = true)
    (halts : ∀ alt ∈ getPokemonByType st (chosenCandidate unmarshal st call).ptype,
        isPokemonUsed st alt.id = true) :
    mapCoffeeStore unmarshal st call = .error .exhausted ∧
      runSeq unmarshal st [call] = st := by
  have hens : ensureUniquePokemon (storeFetch st) st
      (chosenCandidate unmarshal st call) = .error .exhausted := by
    unfold ensureUniquePokemon
    rw [hused]
    rw [if_pos rfl]
    have hfind : (getPokemonByType st (chosenCandidate unmarshal st call).ptype).find?
        (fun alt => !isPokemonUsed st alt.id) = none := by
      rw [List.find?_eq_none]
      intro alt hmem
      simp [halts alt hmem]
    simp [storeFetch, hfind]
  have hmain : mapCoffeeStore unmarshal st call = .error .exhausted := by
    unfold mapCoffeeStore
    simp only [mapCoffeeToPokemon]
    rw [if_neg hne]
    have hens' : ensureUniquePokemon (storeFetch st) st
        (selectionStep unmarshal call.coffee
          (getTypedCandidates (storeFetch st) (calculatePokemonTypes call.coffee).1
            (calculatePokemonTypes call.coffee).2)
          (calculatePokemonTypes call.coffee).1
          (scoreOf call.coffee (calculatePokemonTypes call.coffee).1) call.llm).1
        = .error .exhausted := hens
    rw [hens']
  refine ⟨hmain, ?_⟩
  show stepStore unmarshal st call = st
  unfold stepStore
  rw [hmain]

/-- C6 (amended).  On a non-empty shortlist the rule-based selector
returns its first entry, confidence = primary score × 0.9, and one
annotation for each of the five scanned traits whose value is at least
7 (not strictly above 7 — see the counterexample) and for no other
trait, each carrying its fixed target attribute and reasoning
string. -/
theorem getBestTypeMatch_spec (coffee : Coffee) (selected : Pokemon)
    (rest : List Pokemon) (primaryType : String) (typeScore : ℚ) :
    (getBestTypeMatch coffee (selected :: rest) primaryType typeScore).1 = selected ∧
    (getBestTypeMatch coffee (selected :: rest) primaryType typeScore).2.1
      = typeScore * (9/10) ∧
    ∀ m, m ∈ (getBestTypeMatch coffee (selected :: rest) primaryType typeScore).2.2.2 ↔
      ((7 ≤ coffee.tastingTraits.sweetness ∧ m = sweetnessTraitMap) ∨
       (7 ≤ coffee.tastingTraits.bitterness ∧ m = bitternessTraitMap) ∨
       (7 ≤ coffee.tastingTraits.body ∧ m = bodyTraitMap) ∨
       (7 ≤ coffee.tastingTraits.citrusFruitsIntensity ∧ m = citrusTraitMap) ∨
       (7 ≤ coffee.tastingTraits.aromaticIntensity ∧ m = aromaTraitMap)) := by
  refine ⟨rfl, rfl, fun m => ?_⟩
  show m ∈ buildTraitMapping coffee.tastingTraits selected ↔ _
  simp only [buildTraitMapping, List.mem_append, mem_ite_singleton, or_assoc]

/-- C7 (amended).  The per-category scores are a pure function of the
coffee, and whenever the 13 scores are pairwise distinct every
resolution of the unstable sort yields the same primary and secondary
categories; with tied scores the selection may depend on the sort
order (see the counterexample). -/
theorem selectFromSorted_deterministic_of_distinct (c : Coffee)
    (l1 l2 : List (String × ℚ)) (h1 : validOrder c l1) (h2 : validOrder c l2)
    (hd : (typeScoresList c).Pairwise (fun a b => a.2 ≠ b.2)) :
    selectFromSorted l1 = selectFromSorted l2 := by
  rw [validOrder_eq_of_distinct c l1 l2 h1 h2 hd]

/-- C8.  `getTraitValue` is total with default 0: an unrecognised trait
name reads as 0, so a rule extended with such a trait gains
`weight * 10` of `maxPossible` while its raw score is unchanged —
silently deflating the category's score.  (The side condition rules out
the degenerate clamp `max < 0 ≤ min`, which holds for every weight the
table uses.) -/
theorem getTraitValue_unrecognized_spec (t : TastingTraits) (name : String)
    (rule : TypeMappingRule) (tw : TraitWeight)
    (hname : name ∉ recognizedTraitNames) (htw : tw.trait = name)
    (hmin : 0 < tw.min ∨ 0 ≤ tw.max) :
    getTraitValue t name = 0 ∧
    rawTraitScore t { rule with primaryTraits := rule.primaryTraits ++ [tw] }
      = rawTraitScore t rule ∧
    maxPossible { rule with primaryTraits := rule.primaryTraits ++ [tw] }
      = maxPossible rule + tw.weight * 10 := by
  have hzero : getTraitValue t name = 0 := by
    unfold getTraitValue
    have hnone : (traitPairs t).find? (fun p => p.1 == name) = none := by
      rw [List.find?_eq_none]
      intro p hp
      simp only [traitPairs, List.mem_cons, List.not_mem_nil, or_false] at hp
      simp only [recognizedTraitNames, List.mem_cons, List.not_mem_nil, or_false,
        not_or] at hname
      rcases hp with h | h | h | h | h | h | h | h | h | h | h | h <;>
        (subst h; simp only [beq_iff_eq]; exact fun e => absurd e.symm (by tauto))
    rw [hnone]
  have hcontrib : traitContribution t tw = 0 := by
    unfold traitContribution
    rw [htw, hzero]
    rcases lt_or_le 0 tw.min with h | h
    · rw [if_neg (by omega)]
    · rw [if_pos h]
      have hm : 0 ≤ tw.max := by
        rcases hmin with h' | h'
        · omega
        · exact h'
      have hmin0 : min (0 : Int) tw.max = 0 := min_eq_left hm
      rw [hmin0]
      norm_num
  refine ⟨hzero, ?_, ?_⟩
  · unfold rawTraitScore
    simp only [List.map_append, List.sum_append, List.map_cons, List.map_nil,
      List.sum_cons, List.sum_nil, hcontrib]
    ring
  · unfold maxPossible
    simp only [List.map_append, List.sum_append, List.map_cons, List.map_nil,
      List.sum_cons, List.sum_nil]
    ring

/-- C9.  Candidate-repository failures during the primary/secondary
lookups are equivalent to those queries returning no candidates — the
pipeline continues with the other query results (falling back to the
baseline "Normal" query only when the merged list is empty) — and
`MapCoffeeToPokemon` fails with the no-candidates error exactly when
the final candidate list is empty. -/
theorem getTypedCandidates_error_resilient :
    (∀ (fetch : String → Except Unit (List Pokemon)) (p s : String),
      getTypedCandidates fetch p s
        = getTypedCandidates (fun t => .ok (errToNil (fetch t))) p s) ∧
    (∀ (unmarshal : String → Option LLMMappingResponse)
       (fetch : String → Except Unit (List Pokemon)) (st : PokemonStore)
       (coffee : Coffee) (llm : Option (Except Unit String)) (newID : String)
       (now : Nat),
      mapCoffeeToPokemon unmarshal fetch st coffee llm newID now
          = .error .noCandidates ↔
        getTypedCandidates fetch (calculatePokemonTypes coffee).1
          (calculatePokemonTypes coffee).2 = []) := by
  constructor
  · intro fetch p s
    rfl
  · intro unmarshal fetch st coffee llm newID now
    unfold mapCoffeeToPokemon
    by_cases hempty : getTypedCandidates fetch (calculatePokemonTypes coffee).1
        (calculatePokemonTypes coffee).2 = []
    · simp [hempty]
    · have hb : (getTypedCandidates fetch (calculatePokemonTypes coffee).1
          (calculatePokemonTypes coffee).2).isEmpty = false := by
        simpa [List.isEmpty_iff] using hempty
      simp only [hb]
      constructor
      · intro h
        exfalso
        rw [if_neg Bool.false_ne_true] at h
        split at h
        · simp at h
        · simp at h
        · split at h <;>
            (unfold persistMapping at h; split at h <;> simp at h)
      · intro h
        exact absurd h hempty

/-- C10.  `Coffee.Validate` lowercases a non-empty `RoastLevel` and
`ProcessingMethod` in place before comparing them against the allowed
values, so a record whose name, rating, draw-down time and traits are
in range and whose (lowercased) roast level and processing method are
allowed — in particular mixed-case spellings of allowed values — passes
validation and is left with exactly those two fields normalised to
lowercase, every other field unchanged. -/
theorem coffeeValidate_normalizes (c : Coffee)
    (hname : c.name ≠ "")
    (hrating : ¬(c.rating < 0 ∨ 10 < c.rating))
    (hroast : c.roastLevel = "" ∨ validRoastLevels.contains (strToLower c.roastLevel))
    (hproc : c.processingMethod = ""
      ∨ validProcessingMethods.contains (strToLower c.processingMethod))
    (htime : ¬(c.endTime.minutes < 0 ∨ c.endTime.seconds < 0
      ∨ 60 ≤ c.endTime.seconds))
    (htraits : TraitsInRange c.tastingTraits) :
    coffeeValidate c =
      ({ c with roastLevel := strToLower c.roastLevel,
                processingMethod := strToLower c.processingMethod }, none) := by
  have hv := tastingTraitsValidate_none c.tastingTraits htraits
  obtain ⟨cid, cname, corigin, croaster, cvariety, croast, cproc, cnotes, ctraits,
    crating, crecipe, cdripper, cend, ccat, cuat⟩ := c
  simp only at hname hrating hroast hproc htime hv
  have h1 : croast ≠ "" → strToLower croast ∈ validRoastLevels := by
    intro hne; rcases hroast with h | h
    · exact absurd h hne
    · simpa using h
  have h2 : cproc ≠ "" → strToLower cproc ∈ validProcessingMethods := by
    intro hne; rcases hproc with h | h
    · exact absurd h hne
    · simpa using h
  by_cases e1 : croast = "" <;> by_cases e2 : cproc = ""
  · subst e1; subst e2
    simp [coffeeValidate, hname, hrating, htime, hv, strToLower_empty]
  · subst e1
    simp [coffeeValidate, validateProcessingMethod, hname, hrating, htime, hv,
      strToLower_empty, e2, h2 e2]
  · subst e2
    simp [coffeeValidate, validateRoastLevel, hname, hrating, htime, hv,
      strToLower_empty, e1, h1 e1]
  · simp [coffeeValidate, validateRoastLevel, validateProcessingMethod, hname,
      hrating, htime, hv, e1, e2, h1 e1, h2 e2]

/-! ## Counterexamples and concrete witnesses -/

/-- C1 witness: one request against the single-candidate store keeps
the persisted mapping rows free of duplicate candidate ids. -/
theorem runSeq_preserves_uniqueMappings_witness :
    UniqueMappings pidgeyStore ∧
      UniqueMappings (runSeq (fun _ => none) pidgeyStore [usedCall]) :=
  ⟨by decide, runSeq_preserves_uniqueMappings (fun _ => none) pidgeyStore
    [usedCall] (by decide)⟩

/-- C2 counterexample: the electric rule of the static table, applied
to the in-range trait vector with body 10 and every other trait 0,
scores -1/14 — outside [0,1]. -/
theorem calculateTypeScore_electric_negative :
    ("electric", electricRule) ∈ typeRulesList ∧
    TraitsInRange fullBodyCoffee.tastingTraits ∧
    calculateTypeScore fullBodyCoffee electricRule = -1/14 ∧
    ¬(0 ≤ calculateTypeScore fullBodyCoffee electricRule) := by
  refine ⟨by decide, by decide, by decide, by decide⟩

/-- C2 witness: the all-zero coffee under the all-nonnegative "normal"
rule scores within [0,1]. -/
theorem calculateTypeScore_bounds_witness :
    TraitsInRange plainCoffee.tastingTraits ∧
    ("normal", normalRule) ∈ typeRulesList ∧ RuleNonNeg normalRule ∧
    calculateTypeScore plainCoffee normalRule ≤ 1 ∧
    0 ≤ calculateTypeScore plainCoffee normalRule := by
  have h := calculateTypeScore_bounds plainCoffee (by decide) ("normal", normalRule)
    (by decide)
  exact ⟨by decide, by decide, by decide, h.1, h.2 (by decide)⟩

/-- C3 counterexample: a non-JSON refiner body against a store whose
sole candidate is named "Bulbasaur" — the fallback parser's default —
persists a mapping with confidence 0.5, not primary score × 0.9
(which here is 0). -/
theorem unparseable_matched_candidate_half_confidence :
    mappedConfidence (mapCoffeeToPokemon (fun _ => none) (storeFetch bulbStore)
      bulbStore plainCoffee (some (.ok "mystery response")) "m1" 1) = some (1/2) ∧
    scoreOf plainCoffee (calculatePokemonTypes plainCoffee).1 * (9/10) = 0 ∧
    ¬((1 : ℚ)/2 = 0) := by
  refine ⟨by decide, by decide, by norm_num⟩

/-- C3 witness: the same non-JSON body against a store whose candidate
name matches no fallback name runs exactly as with the refiner
disabled. -/
theorem unparseable_unmatched_fallback_witness :
    ((fun _ => (none : Option LLMMappingResponse))
        (cleanResponse "mystery response") = none) ∧
    (∀ cand ∈ getTypedCandidates (storeFetch pidgeyStore)
        (calculatePokemonTypes plainCoffee).1 (calculatePokemonTypes plainCoffee).2,
      strToLower cand.name
        ≠ strToLower (fallbackParse (cleanResponse "mystery response")).selectedPokemon) ∧
    (mapCoffeeToPokemon (fun _ => none) (storeFetch pidgeyStore) pidgeyStore
        plainCoffee (some (.ok "mystery response")) "m1" 1
      = mapCoffeeToPokemon (fun _ => none) (storeFetch pidgeyStore) pidgeyStore
          plainCoffee none "m1" 1 ∧
     (mapCoffeeToPokemon (fun _ => none) (storeFetch pidgeyStore) pidgeyStore
          plainCoffee (some (.ok "mystery response")) "m1" 1
        = .ok (emptyMapping, pidgeyStore) →
      emptyMapping.mappingConfidence
        = scoreOf plainCoffee (calculatePokemonTypes plainCoffee).1 * (9/10))) :=
  ⟨rfl, by decide,
    unparseable_unmatched_fallback (fun _ => none) (storeFetch pidgeyStore)
      pidgeyStore plainCoffee "mystery response" "m1" 1 emptyMapping pidgeyStore
      rfl (by decide)⟩

/-- C4 counterexample: for the coffee with cleanliness 6, body 4 and
spice 9 the function returns primary "normal" (the defaulted baseline)
and a non-empty secondary equal to that primary, contradicting the
claim that a returned secondary always differs from the primary. -/
theorem calculatePokemonTypes_secondary_eq_primary :
    calculatePokemonTypes spicedCoffee = ("normal", "normal") ∧
    (calculatePokemonTypes spicedCoffee).2 = (calculatePokemonTypes spicedCoffee).1 ∧
    (calculatePokemonTypes spicedCoffee).2 ≠ "" := by
  refine ⟨by decide, by decide, by decide⟩

/-- C5 witness: in the store whose only candidate (Pidgey) is already
mapped, the request for the all-zero coffee hits exhaustion and the
store is unchanged. -/
theorem mapCoffee_exhaustion_witness :
    ¬(getTypedCandidates (storeFetch usedStore)
        (calculatePokemonTypes usedCall.coffee).1
        (calculatePokemonTypes usedCall.coffee).2).isEmpty = true ∧
    isPokemonUsed usedStore (chosenCandidate (fun _ => none) usedStore usedCall).id
      = true ∧
    (∀ alt ∈ getPokemonByType usedStore
        (chosenCandidate (fun _ => none) usedStore usedCall).ptype,
      isPokemonUsed usedStore alt.id = true) ∧
    (mapCoffeeStore (fun _ => none) usedStore usedCall = .error .exhausted ∧
      runSeq (fun _ => none) usedStore [usedCall] = usedStore) :=
  ⟨by decide, by decide, by decide,
    mapCoffee_exhaustion (fun _ => none) usedStore usedCall (by decide) (by decide)
      (by decide)⟩

/-- C6 counterexample: a sweetness of exactly 7 — which does not exceed
7 — still emits the sweetness annotation, on `buildTraitMapping`
directly and through the rule-based selector. -/
theorem buildTraitMapping_at_exactly_seven :
    buildTraitMapping sevenSweetTraits pidgey = [sweetnessTraitMap] ∧
    ¬(7 < sevenSweetTraits.sweetness) ∧
    (getBestTypeMatch sevenSweetCoffee [pidgey] "normal" 0).2.2.2
      = [sweetnessTraitMap] := by
  refine ⟨by decide, by decide, by decide⟩

/-- C7 counterexample: on `roastedCoffee` the fire and dark rules both
score exactly 1; the two valid sort orders breaking that tie
differently yield different primary/secondary selections. -/
theorem selectFromSorted_tie_dependent :
    validOrder roastedCoffee tieOrderA ∧ validOrder roastedCoffee tieOrderB ∧
    selectFromSorted tieOrderA = ("fire", "dark") ∧
    selectFromSorted tieOrderB = ("dark", "fire") ∧
    selectFromSorted tieOrderA ≠ selectFromSorted tieOrderB := by
  refine ⟨by decide, by decide, by decide, by decide, by decide⟩

/-- C7 witness: `distinctCoffee` has pairwise-distinct scores, so the
selection is the same for every valid sort order. -/
theorem selectFromSorted_deterministic_witness :
    validOrder distinctCoffee distinctOrder ∧
    (typeScoresList distinctCoffee).Pairwise (fun a b => a.2 ≠ b.2) ∧
    selectFromSorted distinctOrder = selectFromSorted distinctOrder :=
  ⟨by decide, by decide,
    selectFromSorted_deterministic_of_distinct distinctCoffee distinctOrder
      distinctOrder (by decide) (by decide) (by decide)⟩

/-- C8 witness: the unrecognised name "acidity" reads as 0, and adding
it to the "normal" rule inflates only `maxPossible`. -/
theorem getTraitValue_unrecognized_witness :
    "acidity" ∉ recognizedTraitNames ∧ acidityWeight.trait = "acidity" ∧
    (0 < acidityWeight.min ∨ 0 ≤ acidityWeight.max) ∧
    (getTraitValue zeroTraits "acidity" = 0 ∧
     rawTraitScore zeroTraits
       { normalRule with primaryTraits := normalRule.primaryTraits ++ [acidityWeight] }
       = rawTraitScore zeroTraits normalRule ∧
     maxPossible
       { normalRule with primaryTraits := normalRule.primaryTraits ++ [acidityWeight] }
       = maxPossible normalRule + acidityWeight.weight * 10) :=
  ⟨by decide, rfl, Or.inl (by decide),
    getTraitValue_unrecognized_spec zeroTraits "acidity" normalRule acidityWeight
      (by decide) rfl (Or.inl (by decide))⟩

/-- C10 witness: the mixed-case record ("Light", "Washed") passes
validation and is left with the two fields lowercased. -/
theorem coffeeValidate_normalizes_witness :
    mixedCaseCoffee.name ≠ "" ∧
    ¬(mixedCaseCoffee.rating < 0 ∨ 10 < mixedCaseCoffee.rating) ∧
    (mixedCaseCoffee.roastLevel = ""
      ∨ validRoastLevels.contains (strToLower mixedCaseCoffee.roastLevel)) ∧
    (mixedCaseCoffee.processingMethod = ""
      ∨ validProcessingMethods.contains (strToLower mixedCaseCoffee.processingMethod)) ∧
    ¬(mixedCaseCoffee.endTime.minutes < 0 ∨ mixedCaseCoffee.endTime.seconds < 0
      ∨ 60 ≤ mixedCaseCoffee.endTime.seconds) ∧
    TraitsInRange mixedCaseCoffee.tastingTraits ∧
    coffeeValidate mixedCaseCoffee
      = ({ mixedCaseCoffee with
            roastLevel := strToLower mixedCaseCoffee.roastLevel,
            processingMethod := strToLower mixedCaseCoffee.processingMethod },
         none) :=
  ⟨by decide, by decide, Or.inr (by decide), Or.inr (by decide), by decide,
    by decide,
    coffeeValidate_normalizes mixedCaseCoffee (by decide) (by decide)
      (Or.inr (by decide)) (Or.inr (by decide)) (by decide) (by decide)⟩
